import Mathlib

/-! genproxy: record/playback dispatch and the port-80 tunnel relay.

A shallow embedding of `genproxy.go`:

* `processRequest` (the dispatch engine), over its two collaborators
  `recordRequest` and `getResponse`, which live outside this file of the
  program and are therefore fields of `DBClient`; `processRequestOn` is the
  same function over collaborators that have effects of their own, and on
  collaborators that return fixed values and record each call the two agree;
* the `HijackConnect` handler registered for hosts matching `^.*:80$`
  (the tunnel relay), over an environment that scripts the outcome of every
  network call;
* the host matcher `^.*:80$` itself, over a small backtracking matcher for the
  fragment of Go regular expressions the program uses.

Go code runs in the monad `Go`: a computation takes the trace of effects
performed so far and yields an `Outcome` together with the extended trace.
A Go `panic` is the outcome `panicking`; the unbounded `for` loop is unrolled
with fuel and `fuelOut` means "still inside the loop".
-/

namespace Genproxy

/-! ## Data model -/

/-- The text of a non-nil Go `error`. A nil error is `none : Option Err`. -/
abbrev Err := String

/-- The part of `*http.Request` the program can observe. -/
structure Request where
  method : String
  host : String
  path : String
  body : String
  deriving DecidableEq, Repr

/-- The part of `*http.Response` the program can observe. -/
structure Response where
  status : Nat
  headers : List (String × String)
  body : String
  deriving DecidableEq, Repr

/-- The value `orPanic` panics with: the logrus entry built from the error. -/
structure Entry where
  message : String
  error : Err
  deriving DecidableEq, Repr

/-- The two sockets of a tunnel. -/
inductive Conn where
  | client
  | remote
  deriving DecidableEq, Repr

/-- Result of a Go call returning `(value, error)`. -/
inductive Res (α : Type) where
  | ok (a : α)
  | fail (e : Err)
  deriving DecidableEq, Repr

/-- Observable effects, in the order the program performs them. -/
inductive Event where
  /-- the read of `AppConfig.recordState` -/
  | readMode
  /-- a call of `log.Info` -/
  | logInfo (msg : String)
  /-- the call `d.recordRequest(req)` -/
  | callRecordRequest (req : Request)
  /-- the call `d.getResponse(req)` -/
  | callGetResponse (req : Request)
  /-- the logrus line written by `orPanic` before it panics -/
  | logPanic (e : Err)
  /-- the call `ctx.Logf` of the deferred function -/
  | ctxLogf (v : Entry)
  /-- the call `net.Dial("tcp", host)` and its error result -/
  | dial (host : String) (err : Option Err)
  /-- the call `http.ReadRequest(clientBuf.Reader)` and its result -/
  | readRequest (res : Res Request)
  /-- the call `req.Write(remoteBuf)` and its error result -/
  | writeRequest (q : Request) (err : Option Err)
  /-- the call `Flush()` on the buffer of a socket and its error result -/
  | flush (c : Conn) (err : Option Err)
  /-- the call `http.ReadResponse(remoteBuf.Reader, req)` and its result -/
  | readResponse (q : Request) (res : Res Response)
  /-- the call `resp.Write(clientBuf.Writer)` and its error result -/
  | writeResponse (r : Response) (err : Option Err)
  /-- the call `Write(bytes)` directly on a socket -/
  | rawWrite (c : Conn) (bytes : String)
  /-- the call `Close()` on a socket -/
  | close (c : Conn)
  deriving DecidableEq, Repr

/-! ## The execution monad -/

/-- How a Go computation stands after running with some fuel. -/
inductive Outcome (α : Type) where
  /-- it returned normally -/
  | done (a : α)
  /-- it is unwinding with a panic value -/
  | panicking (v : Entry)
  /-- the fuel ran out: it is still running -/
  | fuelOut
  deriving DecidableEq, Repr

/-- A Go computation: from the trace so far to an outcome and the new trace. -/
def Go (α : Type) : Type := List Event → Outcome α × List Event

/-- Normal return. -/
def Go.ret {α : Type} (a : α) : Go α := fun t => (Outcome.done a, t)

/-- Sequencing: a panic or fuel exhaustion of the first part skips the rest. -/
def Go.seq {α β : Type} (m : Go α) (f : α → Go β) : Go β := fun t =>
  match m t with
  | (Outcome.done a, t1) => f a t1
  | (Outcome.panicking v, t1) => (Outcome.panicking v, t1)
  | (Outcome.fuelOut, t1) => (Outcome.fuelOut, t1)

instance : Monad Go where
  pure := Go.ret
  bind := Go.seq

/-- Perform one observable effect. -/
def emit (e : Event) : Go Unit := fun t => (Outcome.done (), t ++ [e])

/-- Go's built-in `panic(v)`. -/
def goPanic {α : Type} (v : Entry) : Go α := fun t => (Outcome.panicking v, t)

/-- The loop ran out of fuel. -/
def outOfFuel {α : Type} : Go α := fun t => (Outcome.fuelOut, t)

/-! ## The dispatch engine -/

/-- The field of `AppConfig` read by `processRequest`. -/
structure Configuration where
  recordState : Bool
  deriving DecidableEq, Repr

/-- The two methods of `DBClient` called by `processRequest`, whose bodies are
not part of `genproxy.go`: for the one call `processRequest` makes, each is
the function from the request to what the method returns. -/
structure DBClient where
  recordRequest : Request → Option Response × Option Err
  getResponse : Request → Option Response

/-- Source `DBClient.processRequest`. -/
def processRequest (cfg : Configuration) (d : DBClient) (req : Request) :
    Go (Request × Option Response) := do
  emit Event.readMode
  if cfg.recordState then
    emit (Event.logInfo "*** RECORD ***")
    emit (Event.callRecordRequest req)
    let (newResponse, err) := d.recordRequest req
    match err with
    | some _ =>
      -- something bad happened, passing through
      return (req, none)
    | none =>
      return (req, newResponse)
  else
    emit (Event.logInfo "*** PLAYBACK ***")
    emit (Event.callGetResponse req)
    let newResponse := d.getResponse req
    return (req, newResponse)

/-- Whether an event is a call of one of the two collaborators. -/
def isCollaboratorCall : Event → Bool
  | Event.callRecordRequest _ => true
  | Event.callGetResponse _ => true
  | _ => false

/-- The three things `processRequest` reaches outside itself, each as a Go
computation of its own: it may read and extend the trace, return different
values at different moments, panic or not come back. -/
structure Collaborators where
  /-- the read of the process-wide flag `AppConfig.recordState` -/
  recordState : Go Bool
  /-- the method `d.recordRequest(req)`: the live round-trip to the upstream -/
  recordRequest : Request → Go (Option Response × Option Err)
  /-- the method `d.getResponse(req)`: the lookup in the store -/
  getResponse : Request → Go (Option Response)

/-- Source `DBClient.processRequest`, over collaborators with effects: the flag
and the two methods are run where the source reads and calls them. -/
def processRequestOn (c : Collaborators) (req : Request) :
    Go (Request × Option Response) := do
  if (← c.recordState) then
    emit (Event.logInfo "*** RECORD ***")
    let (newResponse, err) ← c.recordRequest req
    match err with
    | some _ =>
      -- something bad happened, passing through
      return (req, none)
    | none =>
      return (req, newResponse)
  else
    emit (Event.logInfo "*** PLAYBACK ***")
    let newResponse ← c.getResponse req
    return (req, newResponse)

/-- The collaborators of a configuration and a client whose methods return
fixed values: each read of the flag and each call of a method is one event of
the trace, performed by the read or the call itself. -/
def instrumented (cfg : Configuration) (d : DBClient) : Collaborators where
  recordState := do
    emit Event.readMode
    return cfg.recordState
  recordRequest := fun req => do
    emit (Event.callRecordRequest req)
    return d.recordRequest req
  getResponse := fun req => do
    emit (Event.callGetResponse req)
    return d.getResponse req

/-- What `processRequest` returns in RECORD mode from the pair the upstream
call returned: no response on an error, the response otherwise. -/
def recordResult (req : Request) (p : Option Response × Option Err) :
    Request × Option Response :=
  match p.2 with
  | some _ => (req, none)
  | none => (req, p.1)

/-- A collaborator that must not be run: it panics. -/
def forbidden {α : Type} (what : String) : Go α := goPanic ⟨"must not be called", what⟩

/-! ## The tunnel relay -/

/-- The network as seen by one run of the tunnel handler: the result of every
call the handler makes on a socket, the calls of relay round `i` (counted
from 0) being indexed by `i`. -/
structure Env where
  /-- result of `net.Dial("tcp", host)` -/
  dial : String → Option Err
  /-- result of `http.ReadRequest(clientBuf.Reader)` in round `i` -/
  readRequest : Nat → Res Request
  /-- result of `req.Write(remoteBuf)` in round `i` -/
  writeRequest : Nat → Request → Option Err
  /-- result of `remoteBuf.Flush()` in round `i` -/
  flushRemote : Nat → Option Err
  /-- result of `http.ReadResponse(remoteBuf.Reader, req)` in round `i` -/
  readResponse : Nat → Request → Res Response
  /-- result of `resp.Write(clientBuf.Writer)` in round `i` -/
  writeResponse : Nat → Response → Option Err
  /-- result of `clientBuf.Flush()` in round `i` -/
  flushClient : Nat → Option Err

/-- Source `orPanic`: on a non-nil error, log it and panic with the entry. -/
def orPanic (err : Option Err) : Go Unit :=
  match err with
  | some e => do
    emit (Event.logPanic e)
    goPanic ⟨"Got error.", e⟩
  | none => pure ()

/-- The bytes the deferred function writes to the client after a panic. -/
def cannotReach : String := "HTTP/1.1 500 Cannot reach destination\r\n\r\n"

/-- Source: one pass through the body of the `for` loop of the handler. -/
def relayRound (env : Env) (i : Nat) : Go Unit := do
  let got := env.readRequest i
  emit (Event.readRequest got)
  match got with
  | Res.fail err => orPanic (some err)
  | Res.ok req =>
    orPanic none
    let werr := env.writeRequest i req
    emit (Event.writeRequest req werr)
    orPanic werr
    let ferr := env.flushRemote i
    emit (Event.flush Conn.remote ferr)
    orPanic ferr
    let back := env.readResponse i req
    emit (Event.readResponse req back)
    match back with
    | Res.fail err => orPanic (some err)
    | Res.ok resp =>
      orPanic none
      let werr2 := env.writeResponse i resp
      emit (Event.writeResponse resp werr2)
      orPanic werr2
      let ferr2 := env.flushClient i
      emit (Event.flush Conn.client ferr2)
      orPanic ferr2

/-- Source: the loop `for { ... }` of the handler, which has no `break` and no
`return`; `fuel` bounds the number of rounds run, `i` is the round number. -/
def relayLoop (env : Env) : Nat → Nat → Go Unit
  | 0, _ => outOfFuel
  | fuel + 1, i => do
    relayRound env i
    relayLoop env fuel (i + 1)

/-- Source: the handler's statements after the `defer`: wrap the client socket
(no effect), dial `req.URL.Host`, then relay. -/
def hijackBody (env : Env) (host : String) (fuel : Nat) : Go Unit := do
  let err := env.dial host
  emit (Event.dial host err)
  orPanic err
  relayLoop env fuel 0

/-- Source: the deferred closure of the handler. Its argument is what
`recover()` returns: the value of the panic in flight, or nil. The result is
the panic still in flight when the closure returns, which is none because
`recover()` has been called. -/
def hijackDeferred (recovered : Option Entry) : Go (Option Entry) := do
  match recovered with
  | some e =>
    emit (Event.ctxLogf e)
    emit (Event.rawWrite Conn.client cannotReach)
  | none => pure ()
  emit (Event.close Conn.client)
  return none

/-- Go's `defer`: when the body has returned or is panicking, the deferred
function runs; the call then returns normally unless a panic is still in
flight. A body that is still running has not reached its deferred function. -/
def withDefer (body : Go Unit) (deferred : Option Entry → Go (Option Entry)) : Go Unit :=
  fun t =>
    let finish : Option Entry → Go Unit := fun inFlight => do
      match (← deferred inFlight) with
      | some v => goPanic v
      | none => pure ()
    match body t with
    | (Outcome.done (), t1) => finish none t1
    | (Outcome.panicking v, t1) => finish (some v) t1
    | (Outcome.fuelOut, t1) => (Outcome.fuelOut, t1)

/-- Source: the function passed to `HijackConnect`, run for `fuel` rounds. -/
def hijackConnect (env : Env) (host : String) (fuel : Nat) : Go Unit :=
  withDefer (hijackBody env host fuel) hijackDeferred

/-- The error a call reported, if the event is a socket call that failed. -/
def errOf : Event → Option Err
  | Event.dial _ err => err
  | Event.readRequest (Res.fail e) => some e
  | Event.writeRequest _ err => err
  | Event.flush _ err => err
  | Event.readResponse _ (Res.fail e) => some e
  | Event.writeResponse _ err => err
  | _ => none

/-- The events of one relay round in which every call succeeds. -/
def roundEvents (q : Request) (r : Response) : List Event :=
  [Event.readRequest (Res.ok q), Event.writeRequest q none, Event.flush Conn.remote none,
   Event.readResponse q (Res.ok r), Event.writeResponse r none, Event.flush Conn.client none]

/-- The events of consecutive successful rounds, one per request/response pair. -/
def roundsEvents : List (Request × Response) → List Event
  | [] => []
  | (q, r) :: rest => roundEvents q r ++ roundsEvents rest

/-- Whether every call of round `i` succeeds. -/
def roundOk (env : Env) (i : Nat) : Bool :=
  match env.readRequest i with
  | Res.fail _ => false
  | Res.ok q =>
    env.writeRequest i q == none && env.flushRemote i == none &&
    match env.readResponse i q with
    | Res.fail _ => false
    | Res.ok r => env.writeResponse i r == none && env.flushClient i == none

/-- Whether an event is one of the socket calls of the handler's body: the
dial and the six calls of a relay round. -/
def isCall : Event → Bool
  | Event.dial _ _ => true
  | Event.readRequest _ => true
  | Event.writeRequest _ _ => true
  | Event.flush _ _ => true
  | Event.readResponse _ _ => true
  | Event.writeResponse _ _ => true
  | _ => false

/-- Every event of the list is a socket call of the body that succeeded. -/
def Quiet (evs : List Event) : Prop := ∀ x ∈ evs, isCall x = true ∧ errOf x = none

/-- Every call of round `i` succeeds, reading request `q` from the client and
response `r` from the upstream. -/
def RoundSucceeds (env : Env) (i : Nat) (q : Request) (r : Response) : Prop :=
  env.readRequest i = Res.ok q ∧ env.writeRequest i q = none ∧ env.flushRemote i = none ∧
  env.readResponse i q = Res.ok r ∧ env.writeResponse i r = none ∧ env.flushClient i = none

/-- The request a successful write to the upstream carried. -/
def sentUpstream : Event → Option Request
  | Event.writeRequest q none => some q
  | _ => none

/-- The response a successful write to the client carried. -/
def sentToClient : Event → Option Response
  | Event.writeResponse r none => some r
  | _ => none

/-- What the deferred function does after recovering the panic of `orPanic`
for the error `e`. -/
def recoveryEvents (e : Err) : List Event :=
  [Event.ctxLogf ⟨"Got error.", e⟩, Event.rawWrite Conn.client cannotReach,
   Event.close Conn.client]

/-- Whether the trace holds the write of the error message to the client. -/
def errorWritten (tr : List Event) : Bool :=
  tr.contains (Event.rawWrite Conn.client cannotReach)

/-- Whether the trace holds a successful write of a response to the client. -/
def responseDelivered (tr : List Event) : Bool :=
  tr.any (fun x => (sentToClient x).isSome)

/-! ### Sample runs -/

/-- A sample request for `/a`, told apart by its body. -/
def sampleReq (n : Nat) : Request := ⟨"GET", "example.com", "/a", String.mk (List.replicate n 'q')⟩

/-- A sample response, told apart by its body. -/
def sampleResp (n : Nat) : Response := ⟨200, [], String.mk (List.replicate n 'r')⟩

/-- A network on which the first `n` rounds succeed (request `i` is answered by
response `i`) and the client ends the stream afterwards. -/
def envRounds (n : Nat) : Env where
  dial := fun _ => none
  readRequest := fun i => if i < n then Res.ok (sampleReq i) else Res.fail "EOF"
  writeRequest := fun _ _ => none
  flushRemote := fun _ => none
  readResponse := fun i _ => Res.ok (sampleResp i)
  writeResponse := fun _ _ => none
  flushClient := fun _ => none

/-- A network on which the destination cannot be dialled. -/
def envNoDial : Env where
  dial := fun _ => some "connection refused"
  readRequest := fun _ => Res.fail "EOF"
  writeRequest := fun _ _ => none
  flushRemote := fun _ => none
  readResponse := fun _ _ => Res.fail "EOF"
  writeResponse := fun _ _ => none
  flushClient := fun _ => none

/-- A network on which the destination is dialled and the client sends a
request, but the write of the request to the upstream fails. -/
def envUpstreamDown : Env where
  dial := fun _ => none
  readRequest := fun i => Res.ok (sampleReq i)
  writeRequest := fun _ _ => some "broken pipe"
  flushRemote := fun _ => none
  readResponse := fun i _ => Res.ok (sampleResp i)
  writeResponse := fun _ _ => none
  flushClient := fun _ => none

/-! ## The host matcher of the tunnel relay -/

/-- The fragment of Go (RE2) regular expressions used by the program, with the
default flags: `^` and `$` are the beginning and the end of the text and `.`
is any character except a newline. -/
inductive Regex where
  /-- the assertion `^` -/
  | beginText
  /-- the assertion `$` -/
  | endText
  /-- the class `.` -/
  | anyCharNotNL
  /-- a literal character -/
  | lit (c : Char)
  /-- the repetition `r*` -/
  | star (r : Regex)
  /-- the concatenation `rs` -/
  | cat (r s : Regex)
  deriving DecidableEq, Repr

/-- All ways of repeating `step` at most `fuel` times from `s`, each repetition
consuming at least one character: the list of the remaining inputs. -/
def starFrom (step : List Char → List (List Char)) : Nat → List Char → List (List Char)
  | 0, s => [s]
  | fuel + 1, s =>
    s :: (((step s).filter (fun t => decide (t.length < s.length))).map (starFrom step fuel)).flatten

/-- All ways of matching `r` at the front of the remaining input: the list of
what is left after each match. `n` is the length of the whole text, so the
position is the beginning of the text when `n` characters remain. -/
def Regex.ends (n : Nat) : Regex → List Char → List (List Char)
  | Regex.beginText => fun s => if s.length = n then [s] else []
  | Regex.endText => fun s => if s.isEmpty then [s] else []
  | Regex.anyCharNotNL => fun s =>
    match s with
    | c :: t => if c = (Char.ofNat 10) then [] else [t]
    | [] => []
  | Regex.lit c => fun s =>
    match s with
    | x :: t => if x = c then [t] else []
    | [] => []
  | Regex.star r => fun s => starFrom (Regex.ends n r) s.length s
  | Regex.cat r1 r2 => fun s => ((Regex.ends n r1 s).map (Regex.ends n r2)).flatten

/-- Go `(*Regexp).MatchString`: whether the text contains a match, starting at
any position. -/
def matchString (re : Regex) (s : String) : Bool :=
  (List.range (s.toList.length + 1)).any
    (fun i => !(Regex.ends s.toList.length re (s.toList.drop i)).isEmpty)

/-- Source: the pattern `^.*:80$` passed to `regexp.MustCompile`. -/
def port80Pattern : Regex :=
  Regex.cat Regex.beginText
    (Regex.cat (Regex.star Regex.anyCharNotNL)
      (Regex.cat (Regex.lit ':')
        (Regex.cat (Regex.lit '8') (Regex.cat (Regex.lit '0') Regex.endText))))

/-- Source: the condition `goproxy.ReqHostMatches(regexp.MustCompile("^.*:80$"))`
on the host of a request. -/
def reqHostMatches80 (host : String) : Bool := matchString port80Pattern host

/-! ## Theorems: the dispatch engine -/

/-- C1. Record fail-open: in RECORD mode, when `recordRequest` returns a
non-nil error, `processRequest` returns the original request and no response,
whatever response came with the error. -/
theorem processRequest_record_fail_open (cfg : Configuration) (d : DBClient) (req : Request)
    (t : List Event) (resp : Option Response) (e : Err)
    (hmode : cfg.recordState = true) (hrec : d.recordRequest req = (resp, some e)) :
    (processRequest cfg d req t).1 = Outcome.done (req, none) := by
  simp [processRequest, bind, Go.seq, emit, hmode, hrec, pure, Go.ret]

/-- Witness of C1: the upstream call fails and still hands back a response. -/
theorem processRequest_record_fail_open_witness :
    (processRequest ⟨true⟩ ⟨fun _ => (some (sampleResp 7), some "timeout"), fun _ => none⟩
      (sampleReq 0) []).1 = Outcome.done (sampleReq 0, none) :=
  processRequest_record_fail_open ⟨true⟩ ⟨fun _ => (some (sampleResp 7), some "timeout"), fun _ => none⟩
    (sampleReq 0) [] (some (sampleResp 7)) "timeout" rfl rfl

/-- C2. Playback: in PLAYBACK mode `processRequest` returns normally with the
original request and exactly what `getResponse` returned: no response on a
miss, the stored response on a hit; it never panics. -/
theorem processRequest_playback (cfg : Configuration) (d : DBClient) (req : Request)
    (t : List Event) (hmode : cfg.recordState = false) :
    (processRequest cfg d req t).1 = Outcome.done (req, d.getResponse req) ∧
    (d.getResponse req = none → (processRequest cfg d req t).1 = Outcome.done (req, none)) ∧
    (∀ r, d.getResponse req = some r →
      (processRequest cfg d req t).1 = Outcome.done (req, some r)) ∧
    (∀ v, (processRequest cfg d req t).1 ≠ Outcome.panicking v) := by
  have h : (processRequest cfg d req t).1 = Outcome.done (req, d.getResponse req) := by
    simp [processRequest, bind, Go.seq, emit, hmode, pure, Go.ret]
  refine ⟨h, ?_, ?_, ?_⟩
  · intro hn
    rw [h, hn]
  · intro r hr
    rw [h, hr]
  · intro v
    rw [h]
    simp

/-- Witness of C2: a miss in PLAYBACK mode. -/
theorem processRequest_playback_witness :
    (processRequest ⟨false⟩ ⟨fun _ => (none, some "unused"), fun _ => none⟩
      (sampleReq 0) []).1 = Outcome.done (sampleReq 0, none) :=
  (processRequest_playback ⟨false⟩ ⟨fun _ => (none, some "unused"), fun _ => none⟩
    (sampleReq 0) [] rfl).1

/-- C3. Record success: in RECORD mode, when `recordRequest` returns a response
and a nil error, `processRequest` returns the original request and that very
response. -/
theorem processRequest_record_success (cfg : Configuration) (d : DBClient) (req : Request)
    (t : List Event) (resp : Option Response)
    (hmode : cfg.recordState = true) (hrec : d.recordRequest req = (resp, none)) :
    (processRequest cfg d req t).1 = Outcome.done (req, resp) := by
  simp [processRequest, bind, Go.seq, emit, hmode, hrec, pure, Go.ret]

/-- Witness of C3: the upstream answers 200. -/
theorem processRequest_record_success_witness :
    (processRequest ⟨true⟩ ⟨fun _ => (some (sampleResp 1), none), fun _ => none⟩
      (sampleReq 1) []).1 = Outcome.done (sampleReq 1, some (sampleResp 1)) :=
  processRequest_record_success ⟨true⟩ ⟨fun _ => (some (sampleResp 1), none), fun _ => none⟩
    (sampleReq 1) [] (some (sampleResp 1)) rfl rfl

/-- The run of `processRequestOn` when the flag reads false: one run of
`getResponse` after the log line, and nothing else. -/
theorem processRequestOn_playback (c : Collaborators) (req : Request) (t t1 : List Event)
    (h : c.recordState t = (Outcome.done false, t1)) :
    processRequestOn c req t =
      Go.seq (c.getResponse req) (fun r => Go.ret (req, r))
        (t1 ++ [Event.logInfo "*** PLAYBACK ***"]) := by
  cases hg : c.getResponse req (t1 ++ [Event.logInfo "*** PLAYBACK ***"]) with
  | mk o t2 =>
    cases o <;> simp [processRequestOn, bind, Go.seq, h, emit, pure, Go.ret, hg]

/-- The run of `processRequestOn` when the flag reads true: one run of
`recordRequest` after the log line, and nothing else. -/
theorem processRequestOn_record (c : Collaborators) (req : Request) (t t1 : List Event)
    (h : c.recordState t = (Outcome.done true, t1)) :
    processRequestOn c req t =
      Go.seq (c.recordRequest req) (fun p => Go.ret (recordResult req p))
        (t1 ++ [Event.logInfo "*** RECORD ***"]) := by
  cases hg : c.recordRequest req (t1 ++ [Event.logInfo "*** RECORD ***"]) with
  | mk o t2 =>
    cases o with
    | done p =>
      obtain ⟨resp, err⟩ := p
      cases err <;>
        simp [processRequestOn, bind, Go.seq, h, emit, pure, Go.ret, hg, recordResult]
    | panicking v => simp [processRequestOn, bind, Go.seq, h, emit, pure, Go.ret, hg]
    | fuelOut => simp [processRequestOn, bind, Go.seq, h, emit, pure, Go.ret, hg]

/-- On collaborators that return fixed values and record each read and call,
`processRequestOn` is `processRequest`. -/
theorem processRequestOn_instrumented (cfg : Configuration) (d : DBClient) (req : Request) :
    processRequestOn (instrumented cfg d) req = processRequest cfg d req := by
  funext t
  cases hmode : cfg.recordState
  · simp [processRequestOn, processRequest, instrumented, bind, Go.seq, emit, pure, Go.ret,
      hmode]
  · rcases hr : d.recordRequest req with ⟨resp, _ | e⟩ <;>
      simp [processRequestOn, processRequest, instrumented, bind, Go.seq, emit, pure, Go.ret,
        hmode, hr]

/-- C4. One call of `processRequest` reads the mode once and runs exactly one
collaborator. For collaborators with any effects: when the one read of the flag
gives PLAYBACK, the whole run is that read, the log line and one run of
`getResponse`, whose result is returned, and it is the same run whatever
`recordRequest` is (so `recordRequest` is not run, on a hit and on a miss
alike); when the read gives RECORD, the whole run is that read, the log line
and one run of `recordRequest`, and it is the same run whatever `getResponse`
is. For collaborators that return fixed values and record each read and call,
the trace is the mode read, the log line and the one call. -/
theorem processRequest_calls_one_collaborator (c : Collaborators) (req : Request)
    (t t1 : List Event) :
    (c.recordState t = (Outcome.done false, t1) →
      processRequestOn c req t =
        Go.seq (c.getResponse req) (fun r => Go.ret (req, r))
          (t1 ++ [Event.logInfo "*** PLAYBACK ***"]) ∧
      ∀ other : Request → Go (Option Response × Option Err),
        processRequestOn ⟨c.recordState, other, c.getResponse⟩ req t =
          processRequestOn c req t) ∧
    (c.recordState t = (Outcome.done true, t1) →
      processRequestOn c req t =
        Go.seq (c.recordRequest req) (fun p => Go.ret (recordResult req p))
          (t1 ++ [Event.logInfo "*** RECORD ***"]) ∧
      ∀ other : Request → Go (Option Response),
        processRequestOn ⟨c.recordState, c.recordRequest, other⟩ req t =
          processRequestOn c req t) ∧
    (∀ (cfg : Configuration) (d : DBClient),
      processRequestOn (instrumented cfg d) req = processRequest cfg d req ∧
      (processRequest cfg d req []).2.count Event.readMode = 1 ∧
      ((processRequest cfg d req []).2.filter isCollaboratorCall).length = 1 ∧
      (cfg.recordState = false →
        processRequest cfg d req [] =
          (Outcome.done (req, d.getResponse req),
            [Event.readMode, Event.logInfo "*** PLAYBACK ***", Event.callGetResponse req])) ∧
      (cfg.recordState = true →
        processRequest cfg d req [] =
          (Outcome.done (recordResult req (d.recordRequest req)),
            [Event.readMode, Event.logInfo "*** RECORD ***", Event.callRecordRequest req]))) := by
  refine ⟨?_, ?_, ?_⟩
  · intro h
    refine ⟨processRequestOn_playback c req t t1 h, ?_⟩
    intro other
    rw [processRequestOn_playback c req t t1 h,
      processRequestOn_playback ⟨c.recordState, other, c.getResponse⟩ req t t1 h]
  · intro h
    refine ⟨processRequestOn_record c req t t1 h, ?_⟩
    intro other
    rw [processRequestOn_record c req t t1 h,
      processRequestOn_record ⟨c.recordState, c.recordRequest, other⟩ req t t1 h]
  · intro cfg d
    have hrec : cfg.recordState = true → processRequest cfg d req [] =
        (Outcome.done (recordResult req (d.recordRequest req)),
          [Event.readMode, Event.logInfo "*** RECORD ***", Event.callRecordRequest req]) := by
      intro hmode
      rcases hr : d.recordRequest req with ⟨resp, _ | e⟩ <;>
        simp [processRequest, bind, Go.seq, emit, hmode, hr, pure, Go.ret, recordResult]
    have hplay : cfg.recordState = false → processRequest cfg d req [] =
        (Outcome.done (req, d.getResponse req),
          [Event.readMode, Event.logInfo "*** PLAYBACK ***", Event.callGetResponse req]) := by
      intro hmode
      simp [processRequest, bind, Go.seq, emit, hmode, pure, Go.ret]
    refine ⟨processRequestOn_instrumented cfg d req, ?_, ?_, hplay, hrec⟩
    · cases hmode : cfg.recordState
      · rw [hplay hmode]; simp [List.count_cons]
      · rw [hrec hmode]; simp [List.count_cons]
    · cases hmode : cfg.recordState
      · rw [hplay hmode]; simp [isCollaboratorCall]
      · rw [hrec hmode]; simp [isCollaboratorCall]

/-- Witness of C4: a hit in PLAYBACK mode with an upstream call that would
panic if it were made; the run is the mode read, the log line and the call of
`getResponse`, and it returns the stored response. -/
theorem processRequest_calls_one_collaborator_witness :
    processRequestOn
        ⟨(instrumented ⟨false⟩ ⟨fun _ => (none, none), fun _ => some (sampleResp 2)⟩).recordState,
          fun _ => forbidden "recordRequest",
          (instrumented ⟨false⟩ ⟨fun _ => (none, none), fun _ => some (sampleResp 2)⟩).getResponse⟩
        (sampleReq 2) [] =
      (Outcome.done (sampleReq 2, some (sampleResp 2)),
        [Event.readMode, Event.logInfo "*** PLAYBACK ***",
          Event.callGetResponse (sampleReq 2)]) :=
  ((processRequest_calls_one_collaborator
    ⟨(instrumented ⟨false⟩ ⟨fun _ => (none, none), fun _ => some (sampleResp 2)⟩).recordState,
      fun _ => forbidden "recordRequest",
      (instrumented ⟨false⟩ ⟨fun _ => (none, none), fun _ => some (sampleResp 2)⟩).getResponse⟩
    (sampleReq 2) [] [Event.readMode]).1 rfl).1

/-! ## Lemmas: the shape of a run of the tunnel relay -/

theorem quiet_nil : Quiet [] := by
  intro x hx
  simp at hx

theorem quiet_append {a b : List Event} (ha : Quiet a) (hb : Quiet b) : Quiet (a ++ b) := by
  intro x hx
  rcases List.mem_append.mp hx with h | h
  · exact ha x h
  · exact hb x h

theorem quiet_roundEvents (q : Request) (r : Response) : Quiet (roundEvents q r) := by
  intro x hx
  simp [roundEvents] at hx
  rcases hx with h | h | h | h | h | h <;> subst h <;> exact ⟨rfl, rfl⟩

/-- A round in which every call succeeds returns normally after its six calls. -/
theorem relayRound_ok (env : Env) (i : Nat) (t : List Event) (q : Request) (r : Response)
    (h1 : env.readRequest i = Res.ok q) (h2 : env.writeRequest i q = none)
    (h3 : env.flushRemote i = none) (h4 : env.readResponse i q = Res.ok r)
    (h5 : env.writeResponse i r = none) (h6 : env.flushClient i = none) :
    relayRound env i t = (Outcome.done (), t ++ roundEvents q r) := by
  simp [relayRound, bind, Go.seq, emit, orPanic, pure, Go.ret, h1, h2, h3, h4, h5, h6,
    roundEvents]

/-- A round either succeeds in all its calls and returns, or panics right after
its first failed call, having logged the error. -/
theorem relayRound_shape (env : Env) (i : Nat) (t : List Event) :
    (∃ q r, relayRound env i t = (Outcome.done (), t ++ roundEvents q r) ∧
      roundOk env i = true) ∨
    (∃ evs ev e, relayRound env i t =
        (Outcome.panicking ⟨"Got error.", e⟩, t ++ evs ++ [ev, Event.logPanic e]) ∧
      Quiet evs ∧ isCall ev = true ∧ errOf ev = some e ∧ roundOk env i = false) := by
  cases h1 : env.readRequest i with
  | fail e =>
    refine Or.inr ⟨[], Event.readRequest (Res.fail e), e, ?_, quiet_nil, rfl, rfl, ?_⟩
    · simp [relayRound, bind, Go.seq, emit, orPanic, goPanic, h1]
    · simp [roundOk, h1]
  | ok q =>
    cases h2 : env.writeRequest i q with
    | some e =>
      refine Or.inr ⟨[Event.readRequest (Res.ok q)], Event.writeRequest q (some e), e,
        ?_, ?_, rfl, rfl, ?_⟩
      · simp [relayRound, bind, Go.seq, emit, orPanic, goPanic, pure, Go.ret, h1, h2]
      · intro x hx
        simp at hx
        subst hx
        exact ⟨rfl, rfl⟩
      · simp [roundOk, h1, h2]
    | none =>
      cases h3 : env.flushRemote i with
      | some e =>
        refine Or.inr ⟨[Event.readRequest (Res.ok q), Event.writeRequest q none],
          Event.flush Conn.remote (some e), e, ?_, ?_, rfl, rfl, ?_⟩
        · simp [relayRound, bind, Go.seq, emit, orPanic, goPanic, pure, Go.ret, h1, h2, h3]
        · intro x hx
          simp at hx
          rcases hx with h | h <;> subst h <;> exact ⟨rfl, rfl⟩
        · simp [roundOk, h1, h2, h3]
      | none =>
        cases h4 : env.readResponse i q with
        | fail e =>
          refine Or.inr ⟨[Event.readRequest (Res.ok q), Event.writeRequest q none,
            Event.flush Conn.remote none], Event.readResponse q (Res.fail e), e, ?_, ?_, rfl, rfl, ?_⟩
          · simp [relayRound, bind, Go.seq, emit, orPanic, goPanic, pure, Go.ret, h1, h2, h3, h4]
          · intro x hx
            simp at hx
            rcases hx with h | h | h <;> subst h <;> exact ⟨rfl, rfl⟩
          · simp [roundOk, h1, h2, h3, h4]
        | ok r =>
          cases h5 : env.writeResponse i r with
          | some e =>
            refine Or.inr ⟨[Event.readRequest (Res.ok q), Event.writeRequest q none,
              Event.flush Conn.remote none, Event.readResponse q (Res.ok r)],
              Event.writeResponse r (some e), e, ?_, ?_, rfl, rfl, ?_⟩
            · simp [relayRound, bind, Go.seq, emit, orPanic, goPanic, pure, Go.ret,
                h1, h2, h3, h4, h5]
            · intro x hx
              simp at hx
              rcases hx with h | h | h | h <;> subst h <;> exact ⟨rfl, rfl⟩
            · simp [roundOk, h1, h2, h3, h4, h5]
          | none =>
            cases h6 : env.flushClient i with
            | some e =>
              refine Or.inr ⟨[Event.readRequest (Res.ok q), Event.writeRequest q none,
                Event.flush Conn.remote none, Event.readResponse q (Res.ok r),
                Event.writeResponse r none], Event.flush Conn.client (some e), e,
                ?_, ?_, rfl, rfl, ?_⟩
              · simp [relayRound, bind, Go.seq, emit, orPanic, goPanic, pure, Go.ret,
                  h1, h2, h3, h4, h5, h6]
              · intro x hx
                simp at hx
                rcases hx with h | h | h | h | h <;> subst h <;> exact ⟨rfl, rfl⟩
              · simp [roundOk, h1, h2, h3, h4, h5, h6]
            | none =>
              refine Or.inl ⟨q, r, relayRound_ok env i t q r h1 h2 h3 h4 h5 h6, ?_⟩
              simp [roundOk, h1, h2, h3, h4, h5, h6]

/-- The loop never returns: with the fuel it has it is either still running,
every call so far having succeeded, or it panicked right after the first failed
call, in the first round that is not all right. -/
theorem relayLoop_shape (env : Env) : ∀ (fuel i : Nat) (t : List Event),
    (∃ evs, relayLoop env fuel i t = (Outcome.fuelOut, t ++ evs) ∧ Quiet evs ∧
      ∀ j, i ≤ j → j < i + fuel → roundOk env j = true) ∨
    (∃ evs ev e, relayLoop env fuel i t =
        (Outcome.panicking ⟨"Got error.", e⟩, t ++ evs ++ [ev, Event.logPanic e]) ∧
      Quiet evs ∧ isCall ev = true ∧ errOf ev = some e ∧
      ∃ k, i ≤ k ∧ k < i + fuel ∧ roundOk env k = false) := by
  intro fuel
  induction fuel with
  | zero =>
    intro i t
    refine Or.inl ⟨[], ?_, quiet_nil, ?_⟩
    · simp [relayLoop, outOfFuel]
    · intro j h1 h2
      omega
  | succ fuel ih =>
    intro i t
    rcases relayRound_shape env i t with ⟨q, r, hr, hok⟩ | ⟨evs, ev, e, hr, hq, hc, he, hbad⟩
    · have hstep : relayLoop env (fuel + 1) i t =
          relayLoop env fuel (i + 1) (t ++ roundEvents q r) := by
        simp [relayLoop, bind, Go.seq, hr]
      rcases ih (i + 1) (t ++ roundEvents q r) with ⟨evs, h, hq, hall⟩ | ⟨evs, ev, e, h, hq, hc, he, k, hk1, hk2, hk3⟩
      · refine Or.inl ⟨roundEvents q r ++ evs, ?_, quiet_append (quiet_roundEvents q r) hq, ?_⟩
        · rw [hstep, h, List.append_assoc]
        · intro j h1 h2
          by_cases hj : j = i
          · rw [hj]; exact hok
          · exact hall j (by omega) (by omega)
      · refine Or.inr ⟨roundEvents q r ++ evs, ev, e, ?_,
          quiet_append (quiet_roundEvents q r) hq, hc, he, k, by omega, by omega, hk3⟩
        rw [hstep, h]
        simp [List.append_assoc]
    · refine Or.inr ⟨evs, ev, e, ?_, hq, hc, he, i, le_refl i, by omega, hbad⟩
      simp [relayLoop, bind, Go.seq, hr]

/-- Once the loop has panicked, more fuel changes nothing. -/
theorem relayLoop_stable (env : Env) : ∀ (fuel i : Nat) (t : List Event) (d : Nat)
    (v : Entry) (t1 : List Event), relayLoop env fuel i t = (Outcome.panicking v, t1) →
    relayLoop env (fuel + d) i t = (Outcome.panicking v, t1) := by
  intro fuel
  induction fuel with
  | zero =>
    intro i t d v t1 h
    simp [relayLoop, outOfFuel] at h
  | succ fuel ih =>
    intro i t d v t1 h
    have hf : fuel + 1 + d = (fuel + d) + 1 := by omega
    rw [hf]
    rcases relayRound_shape env i t with ⟨q, r, hr, _⟩ | ⟨evs, ev, e, hr, _⟩
    · simp [relayLoop, bind, Go.seq, hr] at h ⊢
      exact ih _ _ d v t1 h
    · simp [relayLoop, bind, Go.seq, hr] at h ⊢
      exact h

/-- Rounds that succeed, one per pair of the list, add their events in order. -/
theorem relayLoop_rounds (env : Env) : ∀ (pairs : List (Request × Response)) (i fuel : Nat)
    (t : List Event),
    (∀ k q r, pairs.get? k = some (q, r) → RoundSucceeds env (i + k) q r) →
    relayLoop env (pairs.length + fuel) i t =
      relayLoop env fuel (i + pairs.length) (t ++ roundsEvents pairs) := by
  intro pairs
  induction pairs with
  | nil =>
    intro i fuel t _
    simp [roundsEvents]
  | cons p rest ih =>
    intro i fuel t h
    obtain ⟨q, r⟩ := p
    obtain ⟨h1, h2, h3, h4, h5, h6⟩ := h 0 q r rfl
    have hr := relayRound_ok env i t q r h1 h2 h3 h4 h5 h6
    have hlen : (((q, r) :: rest).length + fuel) = (rest.length + fuel) + 1 := by
      simp; omega
    rw [hlen]
    have hstep : relayLoop env ((rest.length + fuel) + 1) i t =
        relayLoop env (rest.length + fuel) (i + 1) (t ++ roundEvents q r) := by
      simp [relayLoop, bind, Go.seq, hr]
    rw [hstep, ih (i + 1) fuel (t ++ roundEvents q r)]
    · simp [roundsEvents, List.append_assoc]
      congr 1
      omega
    · intro k q1 r1 hk
      have := h (k + 1) q1 r1 (by simpa using hk)
      have he : i + 1 + k = i + (k + 1) := by omega
      rw [he]
      exact this

/-- A panicking body is recovered by the deferred function, which logs, writes
the error message to the client and closes the client socket; the handler
then returns normally. -/
theorem hijackConnect_of_panicking (env : Env) (host : String) (fuel : Nat)
    (t t1 : List Event) (v : Entry)
    (h : hijackBody env host fuel t = (Outcome.panicking v, t1)) :
    hijackConnect env host fuel t =
      (Outcome.done (), t1 ++ [Event.ctxLogf v, Event.rawWrite Conn.client cannotReach,
        Event.close Conn.client]) := by
  simp [hijackConnect, withDefer, h, hijackDeferred, bind, Go.seq, emit, pure, Go.ret]

/-- A body that is still running has not run its deferred function. -/
theorem hijackConnect_of_fuelOut (env : Env) (host : String) (fuel : Nat)
    (t t1 : List Event) (h : hijackBody env host fuel t = (Outcome.fuelOut, t1)) :
    hijackConnect env host fuel t = (Outcome.fuelOut, t1) := by
  simp [hijackConnect, withDefer, h]

/-- The body of the handler after a successful dial is the loop. -/
theorem hijackBody_dial_ok (env : Env) (host : String) (fuel : Nat) (t : List Event)
    (h : env.dial host = none) :
    hijackBody env host fuel t = relayLoop env fuel 0 (t ++ [Event.dial host none]) := by
  simp [hijackBody, bind, Go.seq, emit, orPanic, pure, Go.ret, h]

/-- The body of the handler after a failed dial panics at once. -/
theorem hijackBody_dial_fail (env : Env) (host : String) (fuel : Nat) (t : List Event)
    (e : Err) (h : env.dial host = some e) :
    hijackBody env host fuel t =
      (Outcome.panicking ⟨"Got error.", e⟩,
        t ++ [Event.dial host (some e), Event.logPanic e]) := by
  simp [hijackBody, bind, Go.seq, emit, orPanic, goPanic, h]

/-- The body never returns: it is still running with every call so far
successful, or it panicked right after its first failed call. -/
theorem hijackBody_shape (env : Env) (host : String) (fuel : Nat) (t : List Event) :
    (∃ evs, hijackBody env host fuel t = (Outcome.fuelOut, t ++ evs) ∧ Quiet evs ∧
      env.dial host = none ∧ ∀ j, j < fuel → roundOk env j = true) ∨
    (∃ evs ev e, hijackBody env host fuel t =
        (Outcome.panicking ⟨"Got error.", e⟩, t ++ evs ++ [ev, Event.logPanic e]) ∧
      Quiet evs ∧ isCall ev = true ∧ errOf ev = some e) := by
  cases hd : env.dial host with
  | some e =>
    refine Or.inr ⟨[], Event.dial host (some e), e, ?_, quiet_nil, rfl, rfl⟩
    rw [hijackBody_dial_fail env host fuel t e hd]
    simp
  | none =>
    have hq : Quiet [Event.dial host none] := by
      intro x hx
      simp at hx
      subst hx
      exact ⟨rfl, rfl⟩
    rw [hijackBody_dial_ok env host fuel t hd]
    rcases relayLoop_shape env fuel 0 (t ++ [Event.dial host none]) with
      ⟨evs, h, hq2, hall⟩ | ⟨evs, ev, e, h, hq2, hc, he, _⟩
    · refine Or.inl ⟨[Event.dial host none] ++ evs, ?_, quiet_append hq hq2, rfl, ?_⟩
      · rw [h]; simp
      · intro j hj
        exact hall j (Nat.zero_le j) (by omega)
    · refine Or.inr ⟨[Event.dial host none] ++ evs, ev, e, ?_, quiet_append hq hq2, hc, he⟩
      rw [h]; simp

/-- The handler is still running with every call so far successful, or it has
returned normally after its first failed call, the panic log and the recovery
of the deferred function. -/
theorem hijackConnect_shape (env : Env) (host : String) (fuel : Nat) (t : List Event) :
    (∃ evs, hijackConnect env host fuel t = (Outcome.fuelOut, t ++ evs) ∧ Quiet evs ∧
      env.dial host = none ∧ ∀ j, j < fuel → roundOk env j = true) ∨
    (∃ evs ev e, hijackConnect env host fuel t =
        (Outcome.done (), t ++ evs ++ [ev, Event.logPanic e] ++ recoveryEvents e) ∧
      Quiet evs ∧ isCall ev = true ∧ errOf ev = some e) := by
  rcases hijackBody_shape env host fuel t with ⟨evs, h, hq, hd, hall⟩ | ⟨evs, ev, e, h, hq, hc, he⟩
  · exact Or.inl ⟨evs, hijackConnect_of_fuelOut env host fuel t _ h, hq, hd, hall⟩
  · refine Or.inr ⟨evs, ev, e, ?_, hq, hc, he⟩
    rw [hijackConnect_of_panicking env host fuel t _ _ h]
    simp [recoveryEvents]

/-- With a round that is not all right among the first `fuel` rounds, or a
failed dial, the handler has returned. -/
theorem hijackConnect_returns (env : Env) (host : String) (fuel : Nat) (t : List Event)
    (h : env.dial host ≠ none ∨ ∃ k, k < fuel ∧ roundOk env k = false) :
    (hijackConnect env host fuel t).1 = Outcome.done () := by
  rcases hijackConnect_shape env host fuel t with ⟨evs, _, _, hd, hall⟩ | ⟨evs, ev, e, hr, _⟩
  · rcases h with h | ⟨k, hk, hbad⟩
    · exact absurd hd h
    · rw [hall k hk] at hbad
      exact absurd hbad (by simp)
  · rw [hr]

/-- Once the handler has returned, more fuel changes nothing. -/
theorem hijackConnect_stable (env : Env) (host : String) (fuel d : Nat) (t : List Event)
    (h : (hijackConnect env host fuel t).1 = Outcome.done ()) :
    hijackConnect env host (fuel + d) t = hijackConnect env host fuel t := by
  rcases hijackBody_shape env host fuel t with ⟨evs, hb, _⟩ | ⟨evs, ev, e, hb, _⟩
  · rw [hijackConnect_of_fuelOut env host fuel t _ hb] at h
    simp at h
  · have hb2 : hijackBody env host (fuel + d) t =
        (Outcome.panicking ⟨"Got error.", e⟩, t ++ evs ++ [ev, Event.logPanic e]) := by
      cases hd : env.dial host with
      | some e1 =>
        rw [hijackBody_dial_fail env host fuel t e1 hd] at hb
        rw [hijackBody_dial_fail env host (fuel + d) t e1 hd]
        exact hb
      | none =>
        rw [hijackBody_dial_ok env host fuel t hd] at hb
        rw [hijackBody_dial_ok env host (fuel + d) t hd]
        exact relayLoop_stable env fuel 0 _ d _ _ hb
    rw [hijackConnect_of_panicking env host (fuel + d) t _ _ hb2,
      hijackConnect_of_panicking env host fuel t _ _ hb]

/-- No run of the handler ever calls `Close` on the upstream socket. -/
theorem hijackConnect_never_closes_remote (env : Env) (host : String) (fuel : Nat) :
    Event.close Conn.remote ∉ (hijackConnect env host fuel []).2 := by
  intro hmem
  rcases hijackConnect_shape env host fuel [] with ⟨evs, h, hq, _⟩ | ⟨evs, ev, e, h, hq, hc, _⟩
  · rw [h] at hmem
    simp at hmem
    have := (hq _ hmem).1
    simp [isCall] at this
  · rw [h] at hmem
    simp [recoveryEvents] at hmem
    rcases hmem with hmem | hmem
    · have := (hq _ hmem).1
      simp [isCall] at this
    · rw [← hmem] at hc
      simp [isCall] at hc

/-! ## Theorems: the tunnel relay -/

/-- C5. At the run in which the dial succeeds, one request is relayed and the
client then ends the stream, the handler returns having closed the client
socket once and the upstream socket not at all. -/
theorem tunnel_upstream_left_open :
    hijackConnect (envRounds 1) "example.com:80" 2 [] =
      (Outcome.done (),
        Event.dial "example.com:80" none :: roundEvents (sampleReq 0) (sampleResp 0) ++
          [Event.readRequest (Res.fail "EOF"), Event.logPanic "EOF"] ++ recoveryEvents "EOF") ∧
    (hijackConnect (envRounds 1) "example.com:80" 2 []).2.count (Event.close Conn.client) = 1 ∧
    (hijackConnect (envRounds 1) "example.com:80" 2 []).2.count (Event.close Conn.remote) = 0 := by
  decide

/-- Counterexample to C6 as stated: after a response has been written and
flushed to the client, the client ends the stream, and the error message is
written to the client all the same. -/
theorem tunnel_error_written_after_response :
    hijackConnect (envRounds 1) "example.com:80" 2 [] =
      (Outcome.done (),
        [Event.dial "example.com:80" none,
         Event.readRequest (Res.ok (sampleReq 0)), Event.writeRequest (sampleReq 0) none,
         Event.flush Conn.remote none, Event.readResponse (sampleReq 0) (Res.ok (sampleResp 0)),
         Event.writeResponse (sampleResp 0) none, Event.flush Conn.client none,
         Event.readRequest (Res.fail "EOF"), Event.logPanic "EOF",
         Event.ctxLogf ⟨"Got error.", "EOF"⟩, Event.rawWrite Conn.client cannotReach,
         Event.close Conn.client]) ∧
    responseDelivered (hijackConnect (envRounds 1) "example.com:80" 2 []).2 = true ∧
    errorWritten (hijackConnect (envRounds 1) "example.com:80" 2 []).2 = true ∧
    ¬ (responseDelivered (hijackConnect (envRounds 1) "example.com:80" 2 []).2 = true →
        errorWritten (hijackConnect (envRounds 1) "example.com:80" 2 []).2 = false) := by
  decide

/-- C6, amended. Every run of the handler that ends (it ends only through a
failure) writes the error message to the client exactly once, after the failed
call and right before closing the client socket, whether or not a response
had been written to the client before. -/
theorem tunnel_failure_writes_error (env : Env) (host : String) (fuel : Nat)
    (h : (hijackConnect env host fuel []).1 = Outcome.done ()) :
    errorWritten (hijackConnect env host fuel []).2 = true ∧
    (hijackConnect env host fuel []).2.count (Event.rawWrite Conn.client cannotReach) = 1 ∧
    ∃ evs ev e, (hijackConnect env host fuel []).2 =
        evs ++ [ev, Event.logPanic e, Event.ctxLogf ⟨"Got error.", e⟩,
          Event.rawWrite Conn.client cannotReach, Event.close Conn.client] ∧
      Quiet evs ∧ isCall ev = true ∧ errOf ev = some e := by
  rcases hijackConnect_shape env host fuel [] with ⟨evs, hr, _⟩ | ⟨evs, ev, e, hr, hq, hc, he⟩
  · rw [hr] at h
    simp at h
  · have htr : (hijackConnect env host fuel []).2 =
        evs ++ [ev, Event.logPanic e, Event.ctxLogf ⟨"Got error.", e⟩,
          Event.rawWrite Conn.client cannotReach, Event.close Conn.client] := by
      rw [hr]
      simp [recoveryEvents]
    have hnot : (Event.rawWrite Conn.client cannotReach) ∉ evs := by
      intro hmem
      have := (hq _ hmem).1
      simp [isCall] at this
    have hev : ev ≠ Event.rawWrite Conn.client cannotReach := by
      intro heq
      rw [heq] at hc
      simp [isCall] at hc
    refine ⟨?_, ?_, evs, ev, e, htr, hq, hc, he⟩
    · rw [htr]
      simp [errorWritten]
    · rw [htr, List.count_append, List.count_eq_zero_of_not_mem hnot]
      simp [List.count_cons, hev]

/-- Witness of the amended C6: the dial fails, nothing was sent to the client. -/
theorem tunnel_failure_writes_error_witness :
    errorWritten (hijackConnect envNoDial "example.com:80" 3 []).2 = true ∧
    (hijackConnect envNoDial "example.com:80" 3 []).2.count
      (Event.rawWrite Conn.client cannotReach) = 1 :=
  ⟨(tunnel_failure_writes_error envNoDial "example.com:80" 3 (by decide)).1,
   (tunnel_failure_writes_error envNoDial "example.com:80" 3 (by decide)).2.1⟩

/-- C7. On a tunnel whose first `n` rounds succeed, round `k` reading request
`q k` and response `r k`, the handler dials and then performs, round after
round, read `q k`, write `q k` upstream, flush, read `r k`, write `r k` to the
client, flush: after `n` rounds the trace is exactly these `6 n` calls in this
order, with more fuel the trace starts with them, and when the client then
ends the stream there are these `n` round-trips and no more. The requests
written upstream and the responses written to the client are the `q k` and the
`r k` in request order. -/
theorem tunnel_relays_in_order (env : Env) (host : String) (pairs : List (Request × Response))
    (hdial : env.dial host = none)
    (hok : ∀ k q r, pairs.get? k = some (q, r) → RoundSucceeds env k q r) :
    hijackConnect env host pairs.length [] =
      (Outcome.fuelOut, Event.dial host none :: roundsEvents pairs) ∧
    (∀ fuel, pairs.length ≤ fuel → ∃ rest, (hijackConnect env host fuel []).2 =
      Event.dial host none :: roundsEvents pairs ++ rest) ∧
    (∀ e, env.readRequest pairs.length = Res.fail e → ∀ fuel, pairs.length < fuel →
      hijackConnect env host fuel [] =
        (Outcome.done (), Event.dial host none :: roundsEvents pairs ++
          [Event.readRequest (Res.fail e), Event.logPanic e] ++ recoveryEvents e)) ∧
    (roundsEvents pairs).filterMap sentUpstream = pairs.map Prod.fst ∧
    (roundsEvents pairs).filterMap sentToClient = pairs.map Prod.snd := by
  have hok0 : ∀ k q r, pairs.get? k = some (q, r) → RoundSucceeds env (0 + k) q r := by
    intro k q r hk
    rw [Nat.zero_add]
    exact hok k q r hk
  have hbody : ∀ d, hijackBody env host (pairs.length + d) [] =
      relayLoop env d pairs.length (Event.dial host none :: roundsEvents pairs) := by
    intro d
    rw [hijackBody_dial_ok env host _ [] hdial,
      relayLoop_rounds env pairs 0 d _ hok0]
    simp
  refine ⟨?_, ?_, ?_, ?_, ?_⟩
  · apply hijackConnect_of_fuelOut
    have := hbody 0
    simp only [Nat.add_zero] at this
    rw [this]
    simp [relayLoop, outOfFuel]
  · intro fuel hfuel
    obtain ⟨d, rfl⟩ : ∃ d, fuel = pairs.length + d := ⟨fuel - pairs.length, by omega⟩
    rcases relayLoop_shape env d pairs.length (Event.dial host none :: roundsEvents pairs) with
      ⟨evs, h, _⟩ | ⟨evs, ev, e, h, _⟩
    · refine ⟨evs, ?_⟩
      rw [hijackConnect_of_fuelOut env host _ [] _ ((hbody d).trans h)]
    · refine ⟨evs ++ [ev, Event.logPanic e] ++ recoveryEvents e, ?_⟩
      rw [hijackConnect_of_panicking env host _ [] _ _ ((hbody d).trans h)]
      simp [recoveryEvents]
  · intro e he fuel hfuel
    obtain ⟨d, rfl⟩ : ∃ d, fuel = pairs.length + (d + 1) :=
      ⟨fuel - pairs.length - 1, by omega⟩
    have hloop : relayLoop env (d + 1) pairs.length (Event.dial host none :: roundsEvents pairs) =
        (Outcome.panicking ⟨"Got error.", e⟩,
          (Event.dial host none :: roundsEvents pairs) ++
            [Event.readRequest (Res.fail e), Event.logPanic e]) := by
      simp [relayLoop, relayRound, bind, Go.seq, emit, orPanic, goPanic, he]
    rw [hijackConnect_of_panicking env host _ [] _ _ ((hbody (d + 1)).trans hloop)]
    simp [recoveryEvents]
  · clear hok hok0 hbody
    induction pairs with
    | nil => rfl
    | cons p rest ih =>
      obtain ⟨q, r⟩ := p
      simp [roundsEvents, roundEvents, List.filterMap_append, List.filterMap_cons, sentUpstream,
        ih]
  · clear hok hok0 hbody
    induction pairs with
    | nil => rfl
    | cons p rest ih =>
      obtain ⟨q, r⟩ := p
      simp [roundsEvents, roundEvents, List.filterMap_append, List.filterMap_cons, sentToClient,
        ih]

/-- Witness of C7: three sequential requests on one tunnel, the case of the
specification. -/
theorem tunnel_relays_in_order_witness :
    hijackConnect (envRounds 3) "example.com:80" 3 [] =
      (Outcome.fuelOut, Event.dial "example.com:80" none ::
        roundsEvents [(sampleReq 0, sampleResp 0), (sampleReq 1, sampleResp 1),
          (sampleReq 2, sampleResp 2)]) :=
  (tunnel_relays_in_order (envRounds 3) "example.com:80"
    [(sampleReq 0, sampleResp 0), (sampleReq 1, sampleResp 1), (sampleReq 2, sampleResp 2)]
    rfl
    (by
      intro k q r hk
      match k, hk with
      | 0, hk =>
        simp at hk
        obtain ⟨rfl, rfl⟩ := hk
        simp [RoundSucceeds, envRounds]
      | 1, hk =>
        simp at hk
        obtain ⟨rfl, rfl⟩ := hk
        simp [RoundSucceeds, envRounds]
      | 2, hk =>
        simp at hk
        obtain ⟨rfl, rfl⟩ := hk
        simp [RoundSucceeds, envRounds]
      | k + 3, hk => simp at hk)).1

/-- C8. A panic never leaves the handler: for every network and every fuel the
handler is not panicking when it ends; whenever its body panics (which is
what `orPanic` does on the first failed call) the handler returns normally;
and when the dial fails or some call of one of the first `fuel` rounds fails,
the body does panic and the handler does return normally. -/
theorem tunnel_panic_never_escapes (env : Env) (host : String) (fuel : Nat) (t : List Event) :
    (∀ v, (hijackConnect env host fuel t).1 ≠ Outcome.panicking v) ∧
    (∀ v t1, hijackBody env host fuel t = (Outcome.panicking v, t1) →
      (hijackConnect env host fuel t).1 = Outcome.done ()) ∧
    ((env.dial host ≠ none ∨ ∃ k, k < fuel ∧ roundOk env k = false) →
      (∃ v t1, hijackBody env host fuel t = (Outcome.panicking v, t1)) ∧
      (hijackConnect env host fuel t).1 = Outcome.done ()) := by
  refine ⟨?_, ?_, ?_⟩
  · intro v
    rcases hijackConnect_shape env host fuel t with ⟨evs, h, _⟩ | ⟨evs, ev, e, h, _⟩ <;>
      rw [h] <;> simp
  · intro v t1 h
    rw [hijackConnect_of_panicking env host fuel t t1 v h]
  · intro h
    refine ⟨?_, hijackConnect_returns env host fuel t h⟩
    rcases hijackBody_shape env host fuel t with ⟨evs, _, _, hd, hall⟩ | ⟨evs, ev, e, hb, _⟩
    · rcases h with h | ⟨k, hk, hbad⟩
      · exact absurd hd h
      · rw [hall k hk] at hbad
        exact absurd hbad (by simp)
    · exact ⟨_, _, hb⟩

/-- Witness of C8: the upstream answers the first request and the client then
ends the stream; the panic of the second round is recovered. -/
theorem tunnel_panic_never_escapes_witness :
    (∃ v t1, hijackBody (envRounds 1) "example.com:80" 2 [] = (Outcome.panicking v, t1)) ∧
    (hijackConnect (envRounds 1) "example.com:80" 2 []).1 = Outcome.done () :=
  (tunnel_panic_never_escapes (envRounds 1) "example.com:80" 2 []).2.2
    (Or.inr ⟨1, by decide, by decide⟩)

/-- C10. The first failed call ends the relay, and nothing else does. The loop
never returns normally. A run of the handler is either still in the loop, every
call so far having succeeded, or it is over and its trace is: calls that all
succeeded, then the one failed call, then the panic log and the recovery of the
deferred function, none of which is a call of the relay (no further request is
read, nothing further is written upstream). When the dial fails or some call
of one of the first `fuel` rounds fails, the run is over within that fuel and
more fuel adds nothing to it. -/
theorem relay_ends_at_first_failure (env : Env) (host : String) (fuel : Nat) :
    (∀ i t, (relayLoop env fuel i t).1 ≠ Outcome.done ()) ∧
    ((∃ evs, hijackConnect env host fuel [] = (Outcome.fuelOut, evs) ∧ Quiet evs) ∨
     (∃ evs ev e, hijackConnect env host fuel [] =
          (Outcome.done (), evs ++ [ev, Event.logPanic e] ++ recoveryEvents e) ∧
        Quiet evs ∧ isCall ev = true ∧ errOf ev = some e ∧
        ∀ x ∈ Event.logPanic e :: recoveryEvents e, isCall x = false)) ∧
    ((env.dial host ≠ none ∨ ∃ k, k < fuel ∧ roundOk env k = false) →
      (hijackConnect env host fuel []).1 = Outcome.done () ∧
      ∀ d, hijackConnect env host (fuel + d) [] = hijackConnect env host fuel []) := by
  refine ⟨?_, ?_, ?_⟩
  · intro i t
    rcases relayLoop_shape env fuel i t with ⟨evs, h, _⟩ | ⟨evs, ev, e, h, _⟩ <;>
      rw [h] <;> simp
  · rcases hijackConnect_shape env host fuel [] with ⟨evs, h, hq, _⟩ | ⟨evs, ev, e, h, hq, hc, he⟩
    · exact Or.inl ⟨evs, by simpa using h, hq⟩
    · refine Or.inr ⟨evs, ev, e, by simpa using h, hq, hc, he, ?_⟩
      intro x hx
      simp [recoveryEvents] at hx
      rcases hx with h | h | h | h <;> subst h <;> rfl
  · intro h
    have hdone := hijackConnect_returns env host fuel [] h
    exact ⟨hdone, fun d => hijackConnect_stable env host fuel d [] hdone⟩

/-- Witness of C10: the write to the upstream fails in the first round. -/
theorem relay_ends_at_first_failure_witness :
    (hijackConnect envUpstreamDown "example.com:80" 1 []).1 = Outcome.done () ∧
    ∀ d, hijackConnect envUpstreamDown "example.com:80" (1 + d) [] =
      hijackConnect envUpstreamDown "example.com:80" 1 [] :=
  (relay_ends_at_first_failure envUpstreamDown "example.com:80" 1).2.2
    (Or.inr ⟨0, by decide, by decide⟩)

/-! ## Lemmas: the host matcher -/

/-- What `.*` can leave of `s`: any suffix of `s` reached over characters other
than a newline, as many of them as the fuel allows. -/
theorem starFrom_anyChar_mem (n : Nat) : ∀ (fuel : Nat) (s t : List Char),
    t ∈ starFrom (Regex.ends n Regex.anyCharNotNL) fuel s ↔
      ∃ p, s = p ++ t ∧ Char.ofNat 10 ∉ p ∧ p.length ≤ fuel := by
  intro fuel
  induction fuel with
  | zero =>
    intro s t
    simp only [starFrom, List.mem_singleton]
    constructor
    · intro h
      exact ⟨[], by simp [h], by simp, by simp⟩
    · rintro ⟨p, hp, _, hlen⟩
      have hnil : p = [] := List.length_eq_zero.mp (Nat.le_zero.mp hlen)
      subst hnil
      simpa using hp.symm
  | succ fuel ih =>
    intro s t
    cases s with
    | nil =>
      simp only [starFrom, Regex.ends, List.filter_nil, List.map_nil, List.flatten_nil,
        List.mem_singleton]
      constructor
      · intro h
        exact ⟨[], by simp [h], by simp, by simp⟩
      · rintro ⟨p, hp, _, _⟩
        have := List.append_eq_nil.mp hp.symm
        exact this.2
    | cons c tl =>
      by_cases hc : c = Char.ofNat 10
      · simp only [starFrom, Regex.ends, hc, if_true, List.filter_nil, List.map_nil,
          List.flatten_nil, List.mem_singleton]
        constructor
        · intro h
          exact ⟨[], by simp [h], by simp, by simp⟩
        · rintro ⟨p, hp, hnl, _⟩
          cases p with
          | nil => simpa using hp.symm
          | cons a p1 =>
            simp only [List.cons_append, List.cons.injEq] at hp
            exact absurd (by simp [← hp.1]) hnl
      · have hstep : starFrom (Regex.ends n Regex.anyCharNotNL) (fuel + 1) (c :: tl) =
            (c :: tl) :: starFrom (Regex.ends n Regex.anyCharNotNL) fuel tl := by
          simp [starFrom, Regex.ends, hc]
        rw [hstep, List.mem_cons, ih tl t]
        constructor
        · rintro (h | ⟨p, hp, hnl, hlen⟩)
          · exact ⟨[], by simp [h], by simp, by simp⟩
          · refine ⟨c :: p, by simp [hp], ?_, by simp; omega⟩
            intro hmem
            rcases List.mem_cons.mp hmem with h | h
            · exact hc h.symm
            · exact hnl h
        · rintro ⟨p, hp, hnl, hlen⟩
          cases p with
          | nil => exact Or.inl (by simpa using hp.symm)
          | cons a p1 =>
            simp only [List.cons_append, List.cons.injEq] at hp
            refine Or.inr ⟨p1, hp.2, ?_, by simp at hlen; omega⟩
            intro hmem
            exact hnl (List.mem_cons_of_mem _ hmem)

/-- The tail `:80$` of the pattern matches at a position exactly when what
remains of the text is `:80`. -/
theorem ends_port80_tail (n : Nat) (u : List Char) :
    Regex.ends n (Regex.cat (Regex.lit ':')
      (Regex.cat (Regex.lit '8') (Regex.cat (Regex.lit '0') Regex.endText))) u =
      if u = [':', '8', '0'] then [[]] else [] := by
  rcases u with _ | ⟨a, _ | ⟨b, _ | ⟨c, _ | ⟨d, u⟩⟩⟩⟩
  · simp [Regex.ends]
  · by_cases ha : a = ':' <;> simp [Regex.ends, ha]
  · by_cases ha : a = ':' <;> by_cases hb : b = '8' <;> simp [Regex.ends, ha, hb]
  · by_cases ha : a = ':' <;> by_cases hb : b = '8' <;> by_cases hc : c = '0' <;>
      simp [Regex.ends, ha, hb, hc]
  · by_cases ha : a = ':' <;> by_cases hb : b = '8' <;> by_cases hc : c = '0' <;>
      simp [Regex.ends, ha, hb, hc]

/-- Unfolding of the matcher at a concatenation. -/
theorem ends_cat (n : Nat) (a b : Regex) (s : List Char) :
    Regex.ends n (Regex.cat a b) s = ((Regex.ends n a s).map (Regex.ends n b)).flatten := rfl

/-- Unfolding of the matcher at `^`. -/
theorem ends_beginText (n : Nat) (s : List Char) :
    Regex.ends n Regex.beginText s = if s.length = n then [s] else [] := rfl

/-- Unfolding of the matcher at a repetition. -/
theorem ends_star (n : Nat) (r : Regex) (s : List Char) :
    Regex.ends n (Regex.star r) s = starFrom (Regex.ends n r) s.length s := rfl

/-- The pattern `^.*:80$` matches at a position exactly when the position is
the beginning of the text and the text is `:80` after characters other than a
newline. -/
theorem ends_port80Pattern (n : Nat) (s : List Char) :
    (Regex.ends n port80Pattern s).isEmpty = false ↔
      s.length = n ∧ ∃ p, s = p ++ [':', '8', '0'] ∧ Char.ofNat 10 ∉ p := by
  rw [List.isEmpty_eq_false_iff_exists_mem, port80Pattern, ends_cat, ends_beginText]
  by_cases hlen : s.length = n
  · simp only [hlen, if_true, List.map_cons, List.map_nil, List.flatten_cons, List.flatten_nil,
      List.append_nil, true_and]
    rw [ends_cat, ends_star]
    simp only [List.mem_flatten, List.mem_map]
    constructor
    · rintro ⟨x, l, ⟨u, hu, rfl⟩, hx⟩
      rw [ends_port80_tail] at hx
      by_cases hu3 : u = [':', '8', '0']
      · obtain ⟨p, hp, hnl, _⟩ := (starFrom_anyChar_mem n s.length s u).mp hu
        exact ⟨p, by rw [hp, hu3], hnl⟩
      · simp [hu3] at hx
    · rintro ⟨p, hp, hnl⟩
      refine ⟨[], _, ⟨[':', '8', '0'], ?_, rfl⟩, ?_⟩
      · refine (starFrom_anyChar_mem n s.length s _).mpr ⟨p, hp, hnl, ?_⟩
        rw [hp]
        simp
      · rw [ends_port80_tail]
        simp
  · simp [hlen]

/-- The host matcher accepts a text exactly when it is `:80` after characters
other than a newline. -/
theorem matchString_port80Pattern (s : String) :
    matchString port80Pattern s = true ↔
      ∃ p, s.toList = p ++ [':', '8', '0'] ∧ Char.ofNat 10 ∉ p := by
  simp only [matchString, List.any_eq_true, List.mem_range, Bool.not_eq_true']
  constructor
  · rintro ⟨i, _, hi⟩
    have := (ends_port80Pattern s.toList.length (s.toList.drop i)).mp hi
    have hi0 : i = 0 := by
      have h1 := this.1
      rw [List.length_drop] at h1
      omega
    subst hi0
    simpa using this.2
  · intro h
    exact ⟨0, by omega, (ends_port80Pattern s.toList.length (s.toList.drop 0)).mpr
      ⟨by simp, by simpa using h⟩⟩

/-! ## Theorems: the host matcher -/

/-- C9. For a host without a newline, the matcher `^.*:80$` of the tunnel relay
accepts the host exactly when the host ends with the three characters `:80`;
`example.com:80` is accepted, and `example.com:8080`, `example.com:443`,
`example.com:180x` and `example.com` are rejected. -/
theorem reqHostMatches80_iff_suffix (h : String) (hnl : Char.ofNat 10 ∉ h.toList) :
    (reqHostMatches80 h = true ↔ List.IsSuffix ":80".toList h.toList) ∧
    reqHostMatches80 "example.com:80" = true ∧
    reqHostMatches80 "example.com:8080" = false ∧
    reqHostMatches80 "example.com:443" = false ∧
    reqHostMatches80 "example.com:180x" = false ∧
    reqHostMatches80 "example.com" = false := by
  refine ⟨?_, by decide, by decide, by decide, by decide, by decide⟩
  have h80 : ":80".toList = [':', '8', '0'] := rfl
  rw [reqHostMatches80, matchString_port80Pattern, h80]
  constructor
  · rintro ⟨p, hp, _⟩
    exact ⟨p, hp.symm⟩
  · rintro ⟨p, hp⟩
    refine ⟨p, hp.symm, ?_⟩
    intro hmem
    apply hnl
    rw [← hp]
    exact List.mem_append_left _ hmem

/-- Witness of C9: the host `example.com:80`. -/
theorem reqHostMatches80_iff_suffix_witness :
    reqHostMatches80 "example.com:80" = true ↔
      List.IsSuffix ":80".toList "example.com:80".toList :=
  (reqHostMatches80_iff_suffix "example.com:80" (by decide)).1

end Genproxy
